import Mathlib

/-!
# gator: the aggregation loop and the command table

A shallow embedding of `main.go`.  The program talks to a Postgres store (package
`database`), the network, the wall clock and a UUID source.  All of these are
threaded through an explicit external state `σ`; every call the program makes to
them is a field of `Env σ`.  What the program itself does that can be observed
(store calls, the HTTP request, lines written to standard output) is appended,
in program order, to a trace of `Event`s.
-/

set_option autoImplicit false

namespace Gator

/-! ## Values of the Go libraries -/

/-- Instants of `time.Time`: nanoseconds elapsed since January 1, year 1, 00:00:00 UTC,
which is the instant of the zero value `time.Time{}`. -/
structure Time where
  abs : Int
deriving DecidableEq, Repr

/-- Method `Time.IsZero`: the instant is January 1, year 1, 00:00:00 UTC. -/
def Time.IsZero (t : Time) : Bool := t.abs == 0

/-- Layout constant `time.RFC1123Z`. -/
def RFC1123Z : String := "Mon, 02 Jan 2006 15:04:05 -0700"

/-- A `time.Duration`, in nanoseconds. -/
abbrev Duration := Int

/-- Constant `time.Hour`. -/
def Hour : Duration := 3600000000000

/-- A `uuid.UUID`. -/
abbrev UUID := Nat

/-- Type `sql.NullString`: `Valid = false` is SQL NULL. -/
structure NullString where
  Str : String
  Valid : Bool
deriving DecidableEq, Repr

/-- Type `sql.NullTime`: `Valid = false` is SQL NULL. -/
structure NullTime where
  Time : Time
  Valid : Bool
deriving DecidableEq, Repr

/-- Values of Go's `error` interface that the program tells apart: a `*pq.Error`
(with its `Code` and `Message`) and every other error (with its text). -/
inductive Error where
  | pq (Code : String) (Message : String)
  | other (msg : String)
deriving DecidableEq, Repr

/-- Method `Error()` of an error: the text printed by the `%v` verb. -/
def Error.text : Error → String
  | .pq _ m => "pq: " ++ m
  | .other s => s

/-- Call `fmt.Errorf(format, err)` for a format that ends in `%v`: a fresh error that is
not a `*pq.Error`. -/
def Errorf (format : String) (err : Error) : Error :=
  .other (format ++ err.text)

/-! ## Types of `main.go` and of package `database` -/

/-- Type `RSSItem`. -/
structure RSSItem where
  Title : String
  Link : String
  Description : String
  PubDate : String
deriving DecidableEq, Repr

/-- The anonymous struct of the field `RSSFeed.Channel`. -/
structure RSSChannel where
  Title : String
  Link : String
  Description : String
  Item : List RSSItem
deriving DecidableEq, Repr

/-- Type `RSSFeed`. -/
structure RSSFeed where
  Channel : RSSChannel
deriving DecidableEq, Repr

/-- Modelled from the spec: type `database.Feed`, whose declaration is not among the
sources; the fields are those of the Feed of the data model, under the names `main.go`
uses for them. -/
structure Feed where
  ID : UUID
  CreatedAt : Time
  UpdatedAt : Time
  Name : String
  Url : String
  UserID : UUID
  LastFetchedAt : NullTime
deriving DecidableEq, Repr

/-- Modelled from the spec: type `database.MarkFeedFetchedParams`, whose declaration is
not among the sources; the fields are those `scrapeFeed` sets. -/
structure MarkFeedFetchedParams where
  ID : UUID
  LastFetchedAt : NullTime
  UpdatedAt : Time
deriving DecidableEq, Repr

/-- Modelled from the spec: type `database.CreatePostParams`, whose declaration is not
among the sources; the fields are those `scrapeFeed` sets. -/
structure CreatePostParams where
  ID : UUID
  CreatedAt : Time
  UpdatedAt : Time
  Title : NullString
  Url : NullString
  Description : NullString
  PublishedAt : NullTime
  FeedID : UUID
deriving DecidableEq, Repr

/-- Type `command`. -/
structure command where
  name : String
  args : List String
deriving DecidableEq, Repr

/-- An `*http.Request` as far as `fetchFeed` sets it up. -/
structure Request where
  Method : String
  URL : String
  UserAgent : String
deriving DecidableEq, Repr

/-! ## Observable actions -/

/-- What one run of the program does to the outside, in program order. -/
inductive Event where
  | GetNextFeedToFetch
  | MarkFeedFetched (arg : MarkFeedFetchedParams)
  | fetchFeed (feedURL : String)
  | Do (req : Request)
  | CreatePost (arg : CreatePostParams)
  | stdout (text : String)
deriving DecidableEq, Repr

/-- The state a handler works on: the outside world and the trace so far. -/
structure World (σ : Type) where
  ext : σ
  trace : List Event

/-- Append one event to the trace. -/
def World.emit {σ : Type} (w : World σ) (e : Event) : World σ :=
  { w with trace := w.trace ++ [e] }

/-- Calls `fmt.Printf` and `fmt.Println`, with the text already formatted. -/
def World.Print {σ : Type} (w : World σ) (text : String) : World σ :=
  w.emit (.stdout text)

/-- Everything the program calls and does not define.  The queries of package
`database` and the network, clock and UUID source read and change the outside state;
the other functions are pure library functions. -/
structure Env (σ : Type) where
  GetNextFeedToFetch : σ → σ × Except Error Feed
  MarkFeedFetched : σ → MarkFeedFetchedParams → σ × Option Error
  CreatePost : σ → CreatePostParams → σ × Option Error
  Now : σ → σ × Time
  New : σ → σ × UUID
  Do : σ → Request → σ × Except Error String
  ReadAll : σ → String → σ × Except Error String
  NewRequestWithContext : String → String → Except Error Request
  Unmarshal : String → Except Error RSSFeed
  UnescapeString : String → String
  Parse : String → String → Except Error Time
  ParseDuration : String → Except Error Duration
  DurationString : Duration → String

/-! ## `main.go` -/

section Program

variable {σ : Type}

/-- Function `fetchFeed`: build the GET request, send it, read the body, decode the XML. -/
def fetchFeed (env : Env σ) (w : World σ) (feedURL : String) : World σ × Except Error RSSFeed :=
  let w := w.emit (.fetchFeed feedURL)
  match env.NewRequestWithContext "GET" feedURL with
  | .error err =>
    (w, .error (Errorf ("Error creating request for url " ++ feedURL ++ ": ") err))
  | .ok req =>
    let req := { req with UserAgent := "gator" }
    let res := env.Do w.ext req
    let w : World σ := { ext := res.1, trace := w.trace ++ [.Do req] }
    match res.2 with
    | .error err => (w, .error (Errorf "Error creating client for request: " err))
    | .ok body =>
      let read := env.ReadAll w.ext body
      let w : World σ := { ext := read.1, trace := w.trace }
      match read.2 with
      | .error err => (w, .error (Errorf "Error reading http response: " err))
      | .ok xmlData =>
        match env.Unmarshal xmlData with
        | .error err => (w, .error (Errorf "Error unmarshaling response: " err))
        | .ok rssFeed => (w, .ok rssFeed)

/-- The value `sql.NullString{String: s, Valid: s != ""}`. -/
def nullString (s : String) : NullString :=
  { Str := s, Valid := s != "" }

/-- The argument of the `CreatePost` call in the loop of `scrapeFeed`, for one item:
the fields are evaluated in the order of the source (parse of `pubDate` with its
fallback to `time.Now()`, then `uuid.New()`, then the two `time.Now()`). -/
def postParams (env : Env σ) (feed : Feed) (ext : σ) (elem : RSSItem) : σ × CreatePostParams :=
  let title := env.UnescapeString elem.Title
  let url := elem.Link
  let desc := env.UnescapeString elem.Description
  let parsed : σ × Time :=
    match env.Parse RFC1123Z elem.PubDate with
    | .ok t => (ext, t)
    | .error _ => env.Now ext
  let pubDate := parsed.2
  let id := env.New parsed.1
  let createdAt := env.Now id.1
  let updatedAt := env.Now createdAt.1
  (updatedAt.1,
    { ID := id.2
      CreatedAt := createdAt.2
      UpdatedAt := updatedAt.2
      Title := nullString title
      Url := nullString url
      Description := nullString desc
      PublishedAt := { Time := pubDate, Valid := !pubDate.IsZero }
      FeedID := feed.ID })

/-- What the loop of `scrapeFeed` prints for the error returned by `CreatePost`. -/
def reportCreatePost (title : String) : Option Error → List Event
  | none => []
  | some (.pq code _) =>
    if code = "23505" then [.stdout "found existing url, skipping\n"] else []
  | some (.other s) =>
    [.stdout ("Error creating post " ++ title ++ ": " ++ (Error.other s).text ++ "\n")]

/-- The body of the `for _, elem := range rssFeed.Channel.Item` loop of `scrapeFeed`. -/
def scrapeItem (env : Env σ) (feed : Feed) (w : World σ) (elem : RSSItem) : World σ :=
  let arg := postParams env feed w.ext elem
  let res := env.CreatePost arg.1 arg.2
  { ext := res.1
    trace := w.trace ++ .CreatePost arg.2 :: reportCreatePost (env.UnescapeString elem.Title) res.2 }

/-- The call `s.db.GetNextFeedToFetch(context.Background())` of `scrapeFeed`. -/
def selectFeed (env : Env σ) (w : World σ) : World σ × Except Error Feed :=
  let next := env.GetNextFeedToFetch w.ext
  ({ ext := next.1, trace := w.trace ++ [.GetNextFeedToFetch] }, next.2)

/-- The argument of the `MarkFeedFetched` call of `scrapeFeed`: two readings of the
clock, the first for `LastFetchedAt`, the second for `UpdatedAt`. -/
def markParams (env : Env σ) (feed : Feed) (ext : σ) : σ × MarkFeedFetchedParams :=
  let lastFetchedAt := env.Now ext
  let updatedAt := env.Now lastFetchedAt.1
  (updatedAt.1,
    { ID := feed.ID
      LastFetchedAt := { Time := lastFetchedAt.2, Valid := true }
      UpdatedAt := updatedAt.2 })

/-- The call `s.db.MarkFeedFetched(...)` of `scrapeFeed`; the error it returns is
overwritten by the next assignment to `err` and never read. -/
def markFetched (env : Env σ) (feed : Feed) (w : World σ) : World σ :=
  let arg := markParams env feed w.ext
  let res := env.MarkFeedFetched arg.1 arg.2
  { ext := res.1, trace := w.trace ++ [.MarkFeedFetched arg.2] }

/-- The four lines `scrapeFeed` prints for the channel of a fetched document. -/
def printChannel (env : Env σ) (w : World σ) (rssFeed : RSSFeed) : World σ :=
  let w := w.Print ("Title: " ++ env.UnescapeString rssFeed.Channel.Title ++ "\n")
  let w := w.Print ("Link: " ++ rssFeed.Channel.Link ++ "\n")
  let w := w.Print ("Desc: " ++ env.UnescapeString rssFeed.Channel.Description ++ "\n")
  w.Print "\n"

/-- Function `scrapeFeed`: one tick. -/
def scrapeFeed (env : Env σ) (w : World σ) : World σ × Option Error :=
  match selectFeed env w with
  | (w, .error err) => (w, some (Errorf "Error getting next feed to fetch: " err))
  | (w, .ok feed) =>
    match fetchFeed env (markFetched env feed w) feed.Url with
    | (w, .error err) => (w, some (Errorf "Error calling Agg function: " err))
    | (w, .ok rssFeed) =>
      (rssFeed.Channel.Item.foldl (scrapeItem env feed) (printChannel env w rssFeed), none)

/-- How a call that may run forever stands after finitely many ticks. -/
inductive Outcome where
  | returned (err : Option Error)
  | panicked (text : String)
  | running
deriving DecidableEq, Repr

/-- The loop `for range ticker.C` of `handlerAgg`, run for the ticks the ticker has
delivered so far.  The channel is never closed, so the loop ends only by `return`. -/
def tickLoop (env : Env σ) : Nat → World σ → World σ × Outcome
  | 0, w => (w, .running)
  | n + 1, w =>
    match scrapeFeed env w with
    | (w, some err) => (w, .returned (some (Errorf "Error scraping feed: " err)))
    | (w, none) => tickLoop env n w

/-- Function `handlerAgg`, observed after `ticks` ticks of its ticker.
`time.NewTicker` panics when its argument is not positive. -/
def handlerAgg (env : Env σ) (ticks : Nat) (w : World σ) (cmd : command) : World σ × Outcome :=
  match cmd.args with
  | [] => (w, .returned (some (.other "Need at least one arg (time duration)")))
  | arg0 :: _ =>
    match env.ParseDuration arg0 with
    | .error err => (w, .returned (some (Errorf "Error parsing time between reqs: " err)))
    | .ok time_between_reqs =>
      let w := w.Print ("Collecting feed every " ++ env.DurationString time_between_reqs ++ "\n")
      if time_between_reqs ≤ 0 then
        (w, .panicked "non-positive interval for NewTicker")
      else
        tickLoop env ticks w

/-- A handler: `func(*state, command) error`. -/
abbrev Handler (σ : Type) := World σ → command → World σ × Option Error

/-- Type `commands`: the Go map `list`, as a finite lookup. -/
structure commands (σ : Type) where
  list : String → Option (Handler σ)

/-- The table `commands{make(map[string]func(*state, command) error)}` of `main`. -/
def commands.empty : commands σ :=
  { list := fun _ => none }

/-- Method `commands.register`: `c.list[name] = f`. -/
def commands.register (c : commands σ) (name : String) (f : Handler σ) : commands σ :=
  { list := fun k => if k = name then some f else c.list k }

/-- Method `commands.run`. -/
def commands.run (c : commands σ) (w : World σ) (cmd : command) : World σ × Option Error :=
  match c.list cmd.name with
  | none => (w, some (.other "Command not found"))
  | some cmdToRun =>
    match cmdToRun w cmd with
    | (w, some err) => (w, some (Errorf "Error running command: " err))
    | (w, none) => (w, none)

end Program

/-! ## The store -/

/-- Modelled from the spec: type `database.Post`, whose declaration is not among the
sources; the fields are those of the Post of the data model. -/
structure Post where
  ID : UUID
  CreatedAt : Time
  UpdatedAt : Time
  Title : NullString
  Url : NullString
  Description : NullString
  PublishedAt : NullTime
  FeedID : UUID
deriving DecidableEq, Repr

/-- Modelled from the spec: the rows behind package `database`, whose queries and
schema are not among the sources: the registered feeds, in a stable order, and the
stored posts. -/
structure Store where
  feeds : List Feed
  posts : List Post
deriving DecidableEq, Repr

/-- Modelled from the spec: the order of `last_fetched_at` used for selection by the
absent query `GetNextFeedToFetch`, null first and then oldest first:
`before a b` says that `a` comes strictly before `b`. -/
def NullTime.before (a b : NullTime) : Bool :=
  match a.Valid, b.Valid with
  | false, false => false
  | false, true => true
  | true, false => false
  | true, true => decide (a.Time.abs < b.Time.abs)

/-- Modelled from the spec: the choice made by the absent query `GetNextFeedToFetch`,
the feed whose `last_fetched_at` is null or oldest among all registered feeds; among
equals the first in the stable order wins. -/
def Store.next : List Feed → Option Feed
  | [] => none
  | f :: fs =>
    match Store.next fs with
    | none => some f
    | some g => if g.LastFetchedAt.before f.LastFetchedAt then some g else some f

/-- Modelled from the spec: the error of the absent query `GetNextFeedToFetch` on an
empty registry, which the specification calls `NoFeedsRegisteredError`; a query for one
row that finds none fails with `sql.ErrNoRows`, whose text this is. -/
def NoFeedsRegisteredError : Error := .other "sql: no rows in result set"

/-- Modelled from the spec: the absent query `GetNextFeedToFetch`; it fails with
`NoFeedsRegisteredError` if the registry is empty. -/
def Store.GetNextFeedToFetch (s : Store) : Store × Except Error Feed :=
  match Store.next s.feeds with
  | none => (s, .error NoFeedsRegisteredError)
  | some f => (s, .ok f)

/-- Modelled from the spec: the absent query `MarkFeedFetched`; it stamps the
`last_fetched_at` of the feed with the given id and bumps its `updated_at`. -/
def Store.MarkFeedFetched (s : Store) (arg : MarkFeedFetchedParams) : Store × Option Error :=
  ({ s with
      feeds := s.feeds.map fun f =>
        if f.ID = arg.ID then
          { f with LastFetchedAt := arg.LastFetchedAt, UpdatedAt := arg.UpdatedAt }
        else f },
    none)

/-- Modelled from the spec: the row the absent query `CreatePost` inserts for a
candidate post. -/
def Post.ofParams (arg : CreatePostParams) : Post :=
  { ID := arg.ID
    CreatedAt := arg.CreatedAt
    UpdatedAt := arg.UpdatedAt
    Title := arg.Title
    Url := arg.Url
    Description := arg.Description
    PublishedAt := arg.PublishedAt
    FeedID := arg.FeedID }

/-- Modelled from the spec: the failure of the absent query `CreatePost` on a url that
is already stored, a `*pq.Error` with the code of a uniqueness violation, 23505. -/
def uniqueViolation : Error :=
  .pq "23505" "duplicate key value violates unique constraint"

/-- Modelled from the spec: the absent query `CreatePost`; an insert whose `url` is
already stored is rejected with a uniqueness-constraint violation and changes nothing,
every other insert adds one row.  A candidate without url (null) has no url to
conflict on. -/
def Store.CreatePost (s : Store) (arg : CreatePostParams) : Store × Option Error :=
  if arg.Url.Valid && s.posts.any (fun p => p.Url == arg.Url) then
    (s, some uniqueViolation)
  else
    ({ s with posts := s.posts ++ [Post.ofParams arg] }, none)

/-- An environment over the modelled store: the three queries are those of the store,
everything else is taken from `env`. -/
def withStore {σ : Type} (env : Env σ) : Env (Store × σ) :=
  { GetNextFeedToFetch := fun x => ((x.1.GetNextFeedToFetch.1, x.2), x.1.GetNextFeedToFetch.2)
    MarkFeedFetched := fun x arg => (((x.1.MarkFeedFetched arg).1, x.2), (x.1.MarkFeedFetched arg).2)
    CreatePost := fun x arg => (((x.1.CreatePost arg).1, x.2), (x.1.CreatePost arg).2)
    Now := fun x => ((x.1, (env.Now x.2).1), (env.Now x.2).2)
    New := fun x => ((x.1, (env.New x.2).1), (env.New x.2).2)
    Do := fun x req => ((x.1, (env.Do x.2 req).1), (env.Do x.2 req).2)
    ReadAll := fun x body => ((x.1, (env.ReadAll x.2 body).1), (env.ReadAll x.2 body).2)
    NewRequestWithContext := env.NewRequestWithContext
    Unmarshal := env.Unmarshal
    UnescapeString := env.UnescapeString
    Parse := env.Parse
    ParseDuration := env.ParseDuration
    DurationString := env.DurationString }

/-! ## Reading a trace and a store -/

/-- The arguments of the `CreatePost` calls of a trace, in order. -/
def createPosts : List Event → List CreatePostParams
  | [] => []
  | .CreatePost arg :: es => arg :: createPosts es
  | _ :: es => createPosts es

/-- The arguments of the `MarkFeedFetched` calls of a trace, in order. -/
def markCalls : List Event → List MarkFeedFetchedParams
  | [] => []
  | .MarkFeedFetched arg :: es => arg :: markCalls es
  | _ :: es => markCalls es

/-- The urls passed to `fetchFeed` in a trace, in order. -/
def fetches : List Event → List String
  | [] => []
  | .fetchFeed u :: es => u :: fetches es
  | _ :: es => fetches es

/-- The texts written to standard output in a trace, in order. -/
def stdoutLines : List Event → List String
  | [] => []
  | .stdout text :: es => text :: stdoutLines es
  | _ :: es => stdoutLines es

/-- The number of `GetNextFeedToFetch` calls of a trace: the ticks that ran. -/
def selections : List Event → Nat
  | [] => 0
  | .GetNextFeedToFetch :: es => selections es + 1
  | _ :: es => selections es

/-- The urls of the stored posts that have one (not null), one entry per row. -/
def Store.urls (s : Store) : List String :=
  s.posts.filterMap fun p => if p.Url.Valid then some p.Url.Str else none

/-- The `last_fetched_at` of the registered feed with the given id. -/
def Store.lastFetchedAt (s : Store) (id : UUID) : Option NullTime :=
  (s.feeds.find? fun f => f.ID == id).map fun f => f.LastFetchedAt

/-- The table after a sequence of `register` calls on the empty table of `main`. -/
def commands.build {σ : Type} (regs : List (String × Handler σ)) : commands σ :=
  regs.foldl (fun c r => c.register r.1 r.2) commands.empty

/-- The handler most recently registered under a name in a sequence of `register`
calls, if the name was registered at all. -/
def lastRegistered {σ : Type} (regs : List (String × Handler σ)) (name : String) :
    Option (Handler σ) :=
  (regs.reverse.find? fun r => r.1 == name).map fun r => r.2

/-- The dates of the candidates of a document, in the words of the amended claim C6,
from the outside state `ext` in which the first item is reached; only calls of the
environment appear.  For an item whose `pubDate` parses to `t` the candidate's
`PublishedAt` holds `t`, valid exactly when `t` is not the zero instant, and its
`CreatedAt` is the reading of the clock after the UUID.  For an item whose `pubDate`
does not parse the candidate's `PublishedAt` holds the reading of the clock made in
`ext`, valid exactly when that reading is not the zero instant, and its `CreatedAt` is
the next reading, after the UUID.  The next item is reached in the state the
`CreatePost` call for this candidate leaves, the call being made after the second
reading for `UpdatedAt`. -/
def Dated {σ : Type} (env : Env σ) : σ → List RSSItem → List CreatePostParams → Prop
  | _, [], calls => calls = []
  | _, _ :: _, [] => False
  | ext, elem :: rest, p :: ps =>
    match env.Parse RFC1123Z elem.PubDate with
    | .ok t =>
      p.PublishedAt.Time = t ∧
      (p.PublishedAt.Valid = true ↔ t.IsZero = false) ∧
      p.CreatedAt = (env.Now (env.New ext).1).2 ∧
      Dated env (env.CreatePost (env.Now (env.Now (env.New ext).1).1).1 p).1 rest ps
    | .error _ =>
      p.PublishedAt.Time = (env.Now ext).2 ∧
      (p.PublishedAt.Valid = true ↔ (env.Now ext).2.IsZero = false) ∧
      p.CreatedAt = (env.Now (env.New (env.Now ext).1).1).2 ∧
      Dated env
        (env.CreatePost (env.Now (env.Now (env.New (env.Now ext).1).1).1).1 p).1 rest ps

/-! ## A concrete environment

The scenario of the specification: the feed `https://example.com/rss`, whose document
has the channel title `Example &amp; Co` and one item.  The outside state is the number
of readings of the clock and of the UUID source made so far. -/

namespace Sample

/-- The item of the scenario. -/
def item : RSSItem :=
  { Title := "Hi &amp; Bye"
    Link := "https://example.com/1"
    Description := ""
    PubDate := "Mon, 02 Jan 2006 15:04:05 -0700" }

/-- An item whose date is not in the layout and whose title is empty. -/
def undated : RSSItem :=
  { Title := ""
    Link := "https://example.com/2"
    Description := "second"
    PubDate := "yesterday" }

/-- An item dated at the instant of the zero `time.Time`. -/
def ancient : RSSItem :=
  { Title := "Old"
    Link := "https://example.com/0"
    Description := ""
    PubDate := "Mon, 01 Jan 0001 00:00:00 +0000" }

/-- The document of the scenario, with the three items. -/
def doc : RSSFeed :=
  { Channel :=
      { Title := "Example &amp; Co"
        Link := "https://example.com"
        Description := ""
        Item := [item, undated, ancient] } }

/-- The instant 2006-01-02T15:04:05-07:00. -/
def t2006 : Time := { abs := 63271836245000000000 }

/-- The instant of the first reading of the clock, 2026-01-01T00:00:00Z. -/
def t0 : Time := { abs := 63902822400000000000 }

/-- The reading number `n` of the clock: one second after the one before. -/
def clock (n : Nat) : Time := { abs := t0.abs + 1000000000 * n }

/-- Values of the library functions and of the network at the inputs of the scenario,
with a store in which no feed is registered. -/
def env : Env Nat :=
  { GetNextFeedToFetch := fun n => (n, .error NoFeedsRegisteredError)
    MarkFeedFetched := fun n _ => (n, none)
    CreatePost := fun n _ => (n, none)
    Now := fun n => (n + 1, clock n)
    New := fun n => (n + 1, n)
    Do := fun n req =>
      if req.URL = "https://example.com/rss" then (n, .ok "<rss>scenario</rss>")
      else (n, .error (.other "no such host"))
    ReadAll := fun n body => (n, .ok body)
    NewRequestWithContext := fun method url => .ok { Method := method, URL := url, UserAgent := "" }
    Unmarshal := fun data =>
      if data = "<rss>scenario</rss>" then .ok doc else .error (.other "EOF")
    UnescapeString := fun s =>
      if s = "Hi &amp; Bye" then "Hi & Bye"
      else if s = "Example &amp; Co" then "Example & Co"
      else s
    Parse := fun _ value =>
      if value = "Mon, 02 Jan 2006 15:04:05 -0700" then .ok t2006
      else if value = "Mon, 01 Jan 0001 00:00:00 +0000" then .ok { abs := 0 }
      else .error (.other "parsing time: cannot parse")
    ParseDuration := fun s =>
      if s = "1s" then .ok 1000000000
      else if s = "0s" then .ok 0
      else if s = "-1s" then .ok (-1000000000)
      else .error (.other "time: invalid duration")
    DurationString := fun d =>
      if d = 1000000000 then "1s"
      else if d = 0 then "0s"
      else if d = -1000000000 then "-1s"
      else "?" }

/-- The feed of the scenario, never fetched. -/
def feedA : Feed :=
  { ID := 101
    CreatedAt := { abs := 63900000000000000000 }
    UpdatedAt := { abs := 63900000000000000000 }
    Name := "Example"
    Url := "https://example.com/rss"
    UserID := 1
    LastFetchedAt := { Time := { abs := 0 }, Valid := false } }

/-- A second feed, fetched one hour before the first reading of the clock. -/
def feedB : Feed :=
  { ID := 102
    CreatedAt := { abs := 63900000000000000000 }
    UpdatedAt := { abs := 63902818800000000000 }
    Name := "Other"
    Url := "https://example.org/feed"
    UserID := 1
    LastFetchedAt := { Time := { abs := 63902818800000000000 }, Valid := true } }

/-- A start with the two feeds registered and no post stored. -/
def w0 : World (Store × Nat) :=
  { ext := ({ feeds := [feedA, feedB], posts := [] }, 0), trace := [] }

/-- A start with only the second feed registered and no post stored. -/
def wB : World (Store × Nat) :=
  { ext := ({ feeds := [feedB], posts := [] }, 0), trace := [] }

/-- Modelled from the spec: the modelled store when the absent query `MarkFeedFetched`
ends in the outcome the specification calls `WriteError`: nothing is written and an
error is returned.  Everything else is the environment of the scenario over the
modelled store. -/
def envStampFails : Env (Store × Nat) :=
  { withStore env with
    MarkFeedFetched := fun x _ => (x, some (.other "write error")) }

/-- A start with nothing read from the clock and nothing done. -/
def start : World Nat :=
  { ext := 0, trace := [] }

/-- A later start: twelve readings of the clock and the UUID source have been made. -/
def later : World Nat :=
  { ext := 12, trace := [] }

/-- The environment of the scenario with a store that selects the feed of the scenario
and fails the write of the second item with an error that is no `*pq.Error`. -/
def envSecondFails : Env Nat :=
  { env with
    GetNextFeedToFetch := fun n => (n, .ok feedA)
    CreatePost := fun n arg =>
      if arg.Url.Str = "https://example.com/2" then (n, some (.other "connection reset by peer"))
      else (n, none) }

/-- The environment of the scenario with a store that selects the feed of the scenario
in the first tick and the second feed, whose host does not resolve, afterwards. -/
def envTwoFeeds : Env Nat :=
  { env with
    GetNextFeedToFetch := fun n => (n, .ok (if n = 0 then feedA else feedB)) }

/-- The environment of the scenario in which every insert is refused with a
foreign-key violation, SQLSTATE 23503 (the row of the feed is gone). -/
def envForeignKey : Env Nat :=
  { env with
    GetNextFeedToFetch := fun n => (n, .ok feedA)
    CreatePost := fun n _ => (n, some (.pq "23503" "violates foreign key constraint")) }

end Sample

/-! ## Traces of the program -/

section Traces

variable {σ : Type}

theorem createPosts_append (xs ys : List Event) :
    createPosts (xs ++ ys) = createPosts xs ++ createPosts ys := by
  induction xs with
  | nil => rfl
  | cons e es ih => cases e <;> simp [createPosts, ih]

theorem markCalls_append (xs ys : List Event) :
    markCalls (xs ++ ys) = markCalls xs ++ markCalls ys := by
  induction xs with
  | nil => rfl
  | cons e es ih => cases e <;> simp [markCalls, ih]

theorem fetches_append (xs ys : List Event) :
    fetches (xs ++ ys) = fetches xs ++ fetches ys := by
  induction xs with
  | nil => rfl
  | cons e es ih => cases e <;> simp [fetches, ih]

theorem stdoutLines_append (xs ys : List Event) :
    stdoutLines (xs ++ ys) = stdoutLines xs ++ stdoutLines ys := by
  induction xs with
  | nil => rfl
  | cons e es ih => cases e <;> simp [stdoutLines, ih]

theorem createPosts_report (title : String) (err : Option Error) :
    createPosts (reportCreatePost title err) = [] := by
  unfold reportCreatePost
  split
  · rfl
  · split <;> rfl
  · rfl

theorem markCalls_report (title : String) (err : Option Error) :
    markCalls (reportCreatePost title err) = [] := by
  unfold reportCreatePost
  split
  · rfl
  · split <;> rfl
  · rfl

theorem fetches_report (title : String) (err : Option Error) :
    fetches (reportCreatePost title err) = [] := by
  unfold reportCreatePost
  split
  · rfl
  · split <;> rfl
  · rfl

/-- The events of the item loop: they extend the trace, every item adds exactly one
`CreatePost` call, the one for its candidate at the state the item is reached in,
and neither a `MarkFeedFetched` call nor a fetch. -/
theorem foldl_scrapeItem_trace (env : Env σ) (feed : Feed) (items : List RSSItem)
    (w : World σ) :
    ∃ evs, (items.foldl (scrapeItem env feed) w).trace = w.trace ++ evs ∧
      markCalls evs = [] ∧ fetches evs = [] ∧
      List.Forall₂ (fun elem p => ∃ ext, p = (postParams env feed ext elem).2)
        items (createPosts evs) := by
  induction items generalizing w with
  | nil => exact ⟨[], by simp, rfl, rfl, by simp [createPosts]⟩
  | cons elem rest ih =>
    obtain ⟨evs, h1, h2, h3, h4⟩ := ih (scrapeItem env feed w elem)
    refine ⟨.CreatePost (postParams env feed w.ext elem).2 ::
      (reportCreatePost (env.UnescapeString elem.Title)
        (env.CreatePost (postParams env feed w.ext elem).1
          (postParams env feed w.ext elem).2).2 ++ evs), ?_, ?_, ?_, ?_⟩
    · rw [List.foldl_cons, h1]
      simp [scrapeItem]
    · simp [markCalls, markCalls_append, markCalls_report, h2]
    · simp [fetches, fetches_append, fetches_report, h3]
    · have hc : ∀ (a : CreatePostParams) (es : List Event),
          createPosts (.CreatePost a :: es) = a :: createPosts es := fun _ _ => rfl
      rw [hc, createPosts_append, createPosts_report, List.nil_append]
      exact List.Forall₂.cons ⟨w.ext, rfl⟩ h4

/-- The events of `fetchFeed`: the call itself and at most one request, no store call. -/
theorem fetchFeed_trace (env : Env σ) (w : World σ) (url : String) :
    ∃ evs, (fetchFeed env w url).1.trace = w.trace ++ .fetchFeed url :: evs ∧
      markCalls evs = [] ∧ createPosts evs = [] ∧ fetches evs = [] := by
  unfold fetchFeed
  cases hreq : env.NewRequestWithContext "GET" url with
  | error err => exact ⟨[], by simp [World.emit], rfl, rfl, rfl⟩
  | ok req =>
    refine ⟨[.Do { req with UserAgent := "gator" }], ?_, rfl, rfl, rfl⟩
    simp only [World.emit]
    split
    · simp
    · split
      · simp
      · split <;> simp

/-- The events of the channel lines: four lines of output. -/
theorem printChannel_trace (env : Env σ) (w : World σ) (rssFeed : RSSFeed) :
    ∃ evs, (printChannel env w rssFeed).trace = w.trace ++ evs ∧
      markCalls evs = [] ∧ createPosts evs = [] ∧ fetches evs = [] := by
  refine ⟨[.stdout ("Title: " ++ env.UnescapeString rssFeed.Channel.Title ++ "\n"),
    .stdout ("Link: " ++ rssFeed.Channel.Link ++ "\n"),
    .stdout ("Desc: " ++ env.UnescapeString rssFeed.Channel.Description ++ "\n"),
    .stdout "\n"], ?_, rfl, rfl, rfl⟩
  simp [printChannel, World.Print, World.emit]

/-- A tick whose selection and fetch succeed: it returns no error, and the trace
after the fetch grows by the channel lines and the events of the item loop. -/
theorem scrapeFeed_fetched (env : Env σ) (w w1 w2 : World σ) (feed : Feed) (rssFeed : RSSFeed)
    (hsel : selectFeed env w = (w1, .ok feed))
    (hfetch : fetchFeed env (markFetched env feed w1) feed.Url = (w2, .ok rssFeed)) :
    scrapeFeed env w =
      (rssFeed.Channel.Item.foldl (scrapeItem env feed) (printChannel env w2 rssFeed), none) := by
  simp [scrapeFeed, hsel, hfetch]

/-- A tick in which a feed is selected, whatever the fetch does: after the selection
come the stamp and the call of `fetchFeed`, in this order, and nothing after them is
a stamp or a second fetch; every later `CreatePost` carries the id of the feed. -/
theorem scrapeFeed_selected (env : Env σ) (w w1 : World σ) (feed : Feed)
    (hsel : selectFeed env w = (w1, .ok feed)) :
    ∃ rest, (scrapeFeed env w).1.trace =
        w.trace ++ [.GetNextFeedToFetch, .MarkFeedFetched (markParams env feed w1.ext).2,
          .fetchFeed feed.Url] ++ rest ∧
      markCalls rest = [] ∧ fetches rest = [] ∧
      ∀ p ∈ createPosts rest, p.FeedID = feed.ID := by
  have hw1 : w1.trace = w.trace ++ [.GetNextFeedToFetch] := by
    have h := congrArg (fun r => r.1.trace) hsel
    simpa [selectFeed] using h.symm
  obtain ⟨fevs, hf1, hf2, hf3, hf4⟩ := fetchFeed_trace env (markFetched env feed w1) feed.Url
  have hmark : (markFetched env feed w1).trace =
      w.trace ++ [.GetNextFeedToFetch, .MarkFeedFetched (markParams env feed w1.ext).2] := by
    simp [markFetched, hw1]
  cases hres : fetchFeed env (markFetched env feed w1) feed.Url with
  | mk w2 res =>
    rw [hres] at hf1
    replace hf1 : w2.trace =
      (markFetched env feed w1).trace ++ .fetchFeed feed.Url :: fevs := hf1
    cases res with
    | error err =>
      refine ⟨fevs, ?_, hf2, hf4, by simp [hf3]⟩
      simp [scrapeFeed, hsel, hres, hf1, hmark]
    | ok rssFeed =>
      obtain ⟨pevs, hp1, hp2, hp3, hp4⟩ := printChannel_trace env w2 rssFeed
      obtain ⟨ievs, hi1, hi2, hi3, hi4⟩ :=
        foldl_scrapeItem_trace env feed rssFeed.Channel.Item (printChannel env w2 rssFeed)
      refine ⟨fevs ++ pevs ++ ievs, ?_, ?_, ?_, ?_⟩
      · simp [scrapeFeed, hsel, hres, hi1, hp1, hf1, hmark]
      · simp [markCalls_append, hf2, hp2, hi2]
      · simp [fetches_append, hf4, hp4, hi3]
      · intro p hp
        simp only [createPosts_append, hf3, hp3, List.nil_append] at hp
        obtain ⟨i, hi, hget⟩ := List.getElem_of_mem hp
        have hlen := hi4.length_eq
        have hrel := (List.forall₂_iff_get.1 hi4).2 i (by omega) hi
        obtain ⟨ext, hext⟩ := hrel
        rw [List.get_eq_getElem] at hext
        rw [← hget, hext]
        rfl

/-- A tick whose selection and fetch succeed: the `CreatePost` calls it adds to the
trace are, item by item and in the order of the document, the candidates of the items. -/
theorem scrapeFeed_calls (env : Env σ) (w w1 w2 : World σ) (feed : Feed) (rssFeed : RSSFeed)
    (hsel : selectFeed env w = (w1, .ok feed))
    (hfetch : fetchFeed env (markFetched env feed w1) feed.Url = (w2, .ok rssFeed)) :
    ∃ calls, createPosts (scrapeFeed env w).1.trace = createPosts w.trace ++ calls ∧
      List.Forall₂ (fun elem p => ∃ ext, p = (postParams env feed ext elem).2)
        rssFeed.Channel.Item calls := by
  have hw1 : w1.trace = w.trace ++ [.GetNextFeedToFetch] := by
    have h := congrArg (fun r => r.1.trace) hsel
    simpa [selectFeed] using h.symm
  obtain ⟨fevs, hf1, _, hf3, _⟩ := fetchFeed_trace env (markFetched env feed w1) feed.Url
  rw [hfetch] at hf1
  replace hf1 : w2.trace =
    (markFetched env feed w1).trace ++ .fetchFeed feed.Url :: fevs := hf1
  obtain ⟨pevs, hp1, _, hp3, _⟩ := printChannel_trace env w2 rssFeed
  obtain ⟨ievs, hi1, _, _, hi4⟩ :=
    foldl_scrapeItem_trace env feed rssFeed.Channel.Item (printChannel env w2 rssFeed)
  refine ⟨createPosts ievs, ?_, hi4⟩
  rw [scrapeFeed_fetched env w w1 w2 feed rssFeed hsel hfetch]
  simp [hi1, hp1, hf1, markFetched, hw1, createPosts_append, createPosts, hf3, hp3]

/-- The item loop dates its candidates as `Dated` says, from the state it starts in. -/
theorem foldl_scrapeItem_dated (env : Env σ) (feed : Feed) (items : List RSSItem)
    (w : World σ) :
    ∃ evs, (items.foldl (scrapeItem env feed) w).trace = w.trace ++ evs ∧
      Dated env w.ext items (createPosts evs) := by
  induction items generalizing w with
  | nil => exact ⟨[], by simp, by simp [Dated, createPosts]⟩
  | cons elem rest ih =>
    obtain ⟨evs, h1, h2⟩ := ih (scrapeItem env feed w elem)
    refine ⟨.CreatePost (postParams env feed w.ext elem).2 ::
      (reportCreatePost (env.UnescapeString elem.Title)
        (env.CreatePost (postParams env feed w.ext elem).1
          (postParams env feed w.ext elem).2).2 ++ evs), ?_, ?_⟩
    · rw [List.foldl_cons, h1]
      simp [scrapeItem]
    · have hc : ∀ (a : CreatePostParams) (es : List Event),
          createPosts (.CreatePost a :: es) = a :: createPosts es := fun _ _ => rfl
      rw [hc, createPosts_append, createPosts_report, List.nil_append]
      cases hparse : env.Parse RFC1123Z elem.PubDate with
      | ok t =>
        have hext : (scrapeItem env feed w elem).ext =
            (env.CreatePost (env.Now (env.Now (env.New w.ext).1).1).1
              (postParams env feed w.ext elem).2).1 := by
          simp [scrapeItem, postParams, hparse]
        rw [hext] at h2
        simp only [Dated, hparse]
        refine ⟨?_, ?_, ?_, h2⟩ <;> simp [postParams, hparse]
      | error e =>
        have hext : (scrapeItem env feed w elem).ext =
            (env.CreatePost (env.Now (env.Now (env.New (env.Now w.ext).1).1).1).1
              (postParams env feed w.ext elem).2).1 := by
          simp [scrapeItem, postParams, hparse]
        rw [hext] at h2
        simp only [Dated, hparse]
        refine ⟨?_, ?_, ?_, h2⟩ <;> simp [postParams, hparse]

/-- Candidates dated as `Dated` says are as many as the items. -/
theorem Dated_length (env : Env σ) (ext : σ) (items : List RSSItem)
    (calls : List CreatePostParams) (h : Dated env ext items calls) :
    calls.length = items.length := by
  induction items generalizing ext calls with
  | nil =>
    simp only [Dated] at h
    simp [h]
  | cons elem rest ih =>
    cases calls with
    | nil => simp [Dated] at h
    | cons p ps =>
      simp only [Dated] at h
      simp only [List.length_cons, Nat.add_right_cancel_iff]
      split at h
      · exact ih _ _ h.2.2.2
      · exact ih _ _ h.2.2.2

/-- A tick whose selection and fetch succeed dates its candidates as `Dated` says,
from the state the fetch leaves. -/
theorem scrapeFeed_dated (env : Env σ) (w w1 w2 : World σ) (feed : Feed) (rssFeed : RSSFeed)
    (hsel : selectFeed env w = (w1, .ok feed))
    (hfetch : fetchFeed env (markFetched env feed w1) feed.Url = (w2, .ok rssFeed)) :
    ∃ calls, createPosts (scrapeFeed env w).1.trace = createPosts w.trace ++ calls ∧
      Dated env w2.ext rssFeed.Channel.Item calls := by
  have hw1 : w1.trace = w.trace ++ [.GetNextFeedToFetch] := by
    have h := congrArg (fun r => r.1.trace) hsel
    simpa [selectFeed] using h.symm
  obtain ⟨fevs, hf1, _, hf3, _⟩ := fetchFeed_trace env (markFetched env feed w1) feed.Url
  rw [hfetch] at hf1
  replace hf1 : w2.trace =
    (markFetched env feed w1).trace ++ .fetchFeed feed.Url :: fevs := hf1
  obtain ⟨pevs, hp1, _, hp3, _⟩ := printChannel_trace env w2 rssFeed
  obtain ⟨ievs, hi1, hi2⟩ :=
    foldl_scrapeItem_dated env feed rssFeed.Channel.Item (printChannel env w2 rssFeed)
  refine ⟨createPosts ievs, ?_, hi2⟩
  rw [scrapeFeed_fetched env w w1 w2 feed rssFeed hsel hfetch]
  simp [hi1, hp1, hf1, markFetched, hw1, createPosts_append, createPosts, hf3, hp3]

end Traces

/-! ## The claims about one tick -/

section Tick

variable {σ : Type}

/-- Claim C1, batch resilience.  In a tick whose selection and fetch succeed, with a
store that answers the `CreatePost` calls in any way whatever (the environment, and
with it every assignment of outcomes to the calls, is arbitrary), `scrapeFeed`
returns no error, and the `CreatePost` calls it makes are exactly one per item of the
document, in document order, each with the candidate built from its item. -/
theorem scrapeFeed_attempts_every_item (env : Env σ) (w w1 w2 : World σ) (feed : Feed)
    (rssFeed : RSSFeed)
    (hsel : selectFeed env w = (w1, .ok feed))
    (hfetch : fetchFeed env (markFetched env feed w1) feed.Url = (w2, .ok rssFeed)) :
    (scrapeFeed env w).2 = none ∧
    ∃ calls, createPosts (scrapeFeed env w).1.trace = createPosts w.trace ++ calls ∧
      calls.length = rssFeed.Channel.Item.length ∧
      List.Forall₂ (fun elem p => ∃ ext, p = (postParams env feed ext elem).2)
        rssFeed.Channel.Item calls := by
  refine ⟨?_, ?_⟩
  · rw [scrapeFeed_fetched env w w1 w2 feed rssFeed hsel hfetch]
  · obtain ⟨calls, h1, h2⟩ := scrapeFeed_calls env w w1 w2 feed rssFeed hsel hfetch
    exact ⟨calls, h1, h2.length_eq.symm, h2⟩

/-- Witness of C1: the document of three items, with the write of the second item failing. -/
theorem scrapeFeed_attempts_every_item_scenario :
    (scrapeFeed Sample.envSecondFails Sample.start).2 = none ∧
    ∃ calls, createPosts (scrapeFeed Sample.envSecondFails Sample.start).1.trace =
        createPosts Sample.start.trace ++ calls ∧
      calls.length = Sample.doc.Channel.Item.length ∧
      List.Forall₂
        (fun elem p => ∃ ext, p = (postParams Sample.envSecondFails Sample.feedA ext elem).2)
        Sample.doc.Channel.Item calls :=
  scrapeFeed_attempts_every_item Sample.envSecondFails Sample.start
    (selectFeed Sample.envSecondFails Sample.start).1
    (fetchFeed Sample.envSecondFails
      (markFetched Sample.envSecondFails Sample.feedA
        (selectFeed Sample.envSecondFails Sample.start).1) Sample.feedA.Url).1
    Sample.feedA Sample.doc rfl rfl

/-- Claim C5, absent-field normalization.  In a tick whose selection and fetch succeed,
the candidates passed to `CreatePost` correspond to the items of the document one to
one and in order, and in the candidate of an item each of title, url and description
carries the string (title and description unescaped, url the link verbatim) and is
valid exactly when that string is not empty, so an empty string is stored as null; the
feed id of the candidate is the id of the selected feed. -/
theorem scrapeFeed_empty_fields_null (env : Env σ) (w w1 w2 : World σ) (feed : Feed)
    (rssFeed : RSSFeed)
    (hsel : selectFeed env w = (w1, .ok feed))
    (hfetch : fetchFeed env (markFetched env feed w1) feed.Url = (w2, .ok rssFeed)) :
    ∃ calls, createPosts (scrapeFeed env w).1.trace = createPosts w.trace ++ calls ∧
      List.Forall₂
        (fun elem p =>
          p.Title.Str = env.UnescapeString elem.Title ∧
          (p.Title.Valid = true ↔ env.UnescapeString elem.Title ≠ "") ∧
          p.Url.Str = elem.Link ∧
          (p.Url.Valid = true ↔ elem.Link ≠ "") ∧
          p.Description.Str = env.UnescapeString elem.Description ∧
          (p.Description.Valid = true ↔ env.UnescapeString elem.Description ≠ "") ∧
          p.FeedID = feed.ID)
        rssFeed.Channel.Item calls := by
  obtain ⟨calls, h1, h2⟩ := scrapeFeed_calls env w w1 w2 feed rssFeed hsel hfetch
  refine ⟨calls, h1, h2.imp ?_⟩
  rintro elem p ⟨ext, rfl⟩
  simp [postParams, nullString]

/-- Witness of C5: the tick of the scenario. -/
theorem scrapeFeed_empty_fields_null_scenario :
    ∃ calls, createPosts (scrapeFeed Sample.envSecondFails Sample.start).1.trace =
        createPosts Sample.start.trace ++ calls ∧
      List.Forall₂
        (fun elem p =>
          p.Title.Str = Sample.envSecondFails.UnescapeString elem.Title ∧
          (p.Title.Valid = true ↔ Sample.envSecondFails.UnescapeString elem.Title ≠ "") ∧
          p.Url.Str = elem.Link ∧
          (p.Url.Valid = true ↔ elem.Link ≠ "") ∧
          p.Description.Str = Sample.envSecondFails.UnescapeString elem.Description ∧
          (p.Description.Valid = true ↔
            Sample.envSecondFails.UnescapeString elem.Description ≠ "") ∧
          p.FeedID = Sample.feedA.ID)
        Sample.doc.Channel.Item calls :=
  scrapeFeed_empty_fields_null Sample.envSecondFails Sample.start
    (selectFeed Sample.envSecondFails Sample.start).1
    (fetchFeed Sample.envSecondFails
      (markFetched Sample.envSecondFails Sample.feedA
        (selectFeed Sample.envSecondFails Sample.start).1) Sample.feedA.Url).1
    Sample.feedA Sample.doc rfl rfl

/-- Claim C6 fails as stated: the date of the item parses under the layout, to the
instant of the zero `time.Time`, and the candidate's `PublishedAt` is not that instant
but null, by the guard `Valid: !pubDate.IsZero()`. -/
theorem postParams_zero_instant_null :
    Sample.env.Parse RFC1123Z Sample.ancient.PubDate = .ok { abs := 0 } ∧
    (postParams Sample.env Sample.feedA 0 Sample.ancient).2.PublishedAt =
      { Time := { abs := 0 }, Valid := false } :=
  ⟨rfl, rfl⟩

/-- Claim C6 as amended.  In a tick whose selection and fetch succeed, `scrapeFeed`
returns no error and makes one `CreatePost` call per item, in order, and the candidates
are dated as `Dated` says from the state `w2.ext` the fetch leaves.  For an item whose
`pubDate` parses to `t`, the candidate's `PublishedAt` holds `t` and is valid exactly
when `t` is not the zero instant.  For an item whose `pubDate` does not parse, it holds
the reading of the clock made in the state in which the item is reached, which is the
state the `CreatePost` call of the item before has left (for the first item, the state
the fetch has left), and is valid exactly when that reading is not the zero instant;
the reading after it, past the UUID, is the candidate's `CreatedAt`. -/
theorem scrapeFeed_published_at (env : Env σ) (w w1 w2 : World σ) (feed : Feed)
    (rssFeed : RSSFeed)
    (hsel : selectFeed env w = (w1, .ok feed))
    (hfetch : fetchFeed env (markFetched env feed w1) feed.Url = (w2, .ok rssFeed)) :
    (scrapeFeed env w).2 = none ∧
    ∃ calls, createPosts (scrapeFeed env w).1.trace = createPosts w.trace ++ calls ∧
      calls.length = rssFeed.Channel.Item.length ∧
      Dated env w2.ext rssFeed.Channel.Item calls := by
  refine ⟨?_, ?_⟩
  · rw [scrapeFeed_fetched env w w1 w2 feed rssFeed hsel hfetch]
  · obtain ⟨calls, h1, h2⟩ := scrapeFeed_dated env w w1 w2 feed rssFeed hsel hfetch
    exact ⟨calls, h1, Dated_length env w2.ext rssFeed.Channel.Item calls h2, h2⟩

/-- Witness of the amended C6: the tick of the scenario; the second of the three items
has a date that does not parse, the third is dated at the zero instant. -/
theorem scrapeFeed_published_at_scenario :
    (scrapeFeed Sample.envSecondFails Sample.start).2 = none ∧
    ∃ calls, createPosts (scrapeFeed Sample.envSecondFails Sample.start).1.trace =
        createPosts Sample.start.trace ++ calls ∧
      calls.length = Sample.doc.Channel.Item.length ∧
      Dated Sample.envSecondFails
        (fetchFeed Sample.envSecondFails
          (markFetched Sample.envSecondFails Sample.feedA
            (selectFeed Sample.envSecondFails Sample.start).1) Sample.feedA.Url).1.ext
        Sample.doc.Channel.Item calls :=
  scrapeFeed_published_at Sample.envSecondFails Sample.start
    (selectFeed Sample.envSecondFails Sample.start).1
    (fetchFeed Sample.envSecondFails
      (markFetched Sample.envSecondFails Sample.feedA
        (selectFeed Sample.envSecondFails Sample.start).1) Sample.feedA.Url).1
    Sample.feedA Sample.doc rfl rfl

/-- Claim C7 at a failing input: every `CreatePost` of the tick fails with a
`*pq.Error` of code 23503, the three items are attempted, the tick returns no error,
and the only lines written are the four lines of the channel: no line reports a
failed write. -/
theorem scrapeFeed_pq_failure_silent :
    (createPosts (scrapeFeed Sample.envForeignKey Sample.start).1.trace).length = 3 ∧
    (scrapeFeed Sample.envForeignKey Sample.start).2 = none ∧
    stdoutLines (scrapeFeed Sample.envForeignKey Sample.start).1.trace =
      ["Title: Example & Co\n", "Link: https://example.com\n", "Desc: \n", "\n"] := by
  decide

/-- The loop writes nothing for a `*pq.Error` whose code is not 23505, whatever the
code, and one line for every error that is no `*pq.Error`. -/
theorem reportCreatePost_cases (title code message text : String) (hcode : code ≠ "23505") :
    reportCreatePost title (some (.pq code message)) = [] ∧
    reportCreatePost title (some (.pq "23505" message)) =
      [.stdout "found existing url, skipping\n"] ∧
    reportCreatePost title (some (.other text)) =
      [.stdout ("Error creating post " ++ title ++ ": " ++ text ++ "\n")] := by
  refine ⟨?_, ?_, ?_⟩
  · simp [reportCreatePost, hcode]
  · simp [reportCreatePost]
  · simp [reportCreatePost, Error.text]

/-- The sibling path: when the write of the second item fails with an error that is no
`*pq.Error`, the tick writes the line that reports it (the title of that item is
empty). -/
theorem scrapeFeed_other_failure_logged :
    stdoutLines (scrapeFeed Sample.envSecondFails Sample.start).1.trace =
      ["Title: Example & Co\n", "Link: https://example.com\n", "Desc: \n", "\n",
        "Error creating post : connection reset by peer\n"] := by
  decide

end Tick

/-! ## The claims about the loop -/

section Loop

variable {σ : Type}

/-- Ticks that end with the loop still running can be followed by further ticks. -/
theorem tickLoop_add (env : Env σ) (k m : Nat) (w wk : World σ)
    (hrun : tickLoop env k w = (wk, .running)) :
    tickLoop env (k + m) w = tickLoop env m wk := by
  induction k generalizing w with
  | zero =>
    simp only [tickLoop, Prod.mk.injEq, and_true] at hrun
    simp [hrun]
  | succ k ih =>
    rw [Nat.add_right_comm]
    cases hs : scrapeFeed env w with
    | mk w1 res =>
      cases res with
      | some err => simp [tickLoop, hs] at hrun
      | none =>
        simp only [tickLoop, hs] at hrun ⊢
        exact ih w1 hrun

/-- A call of `handlerAgg` that is still running has entered the loop: its state is
that of the loop started after the line announcing the interval. -/
theorem handlerAgg_running (env : Env σ) (k : Nat) (w wk : World σ) (cmd : command)
    (hrun : handlerAgg env k w cmd = (wk, .running)) :
    ∃ d, 0 < d ∧ ∀ n, handlerAgg env n w cmd =
      tickLoop env n (w.Print ("Collecting feed every " ++ env.DurationString d ++ "\n")) := by
  unfold handlerAgg at hrun
  cases hargs : cmd.args with
  | nil => simp [hargs] at hrun
  | cons arg0 rest =>
    cases hdur : env.ParseDuration arg0 with
    | error err => simp [hargs, hdur] at hrun
    | ok d =>
      by_cases hd : d ≤ 0
      · simp [hargs, hdur, hd] at hrun
      · refine ⟨d, not_le.mp hd, fun n => ?_⟩
        simp [handlerAgg, hargs, hdur, hd]

/-- How `handlerAgg` treats its interval argument: without argument and with an
argument that is no duration it returns an error and does nothing else; with a duration
that is not positive it writes the line announcing the interval and panics in
`time.NewTicker`; only with a positive duration does it enter the loop. -/
theorem handlerAgg_interval (env : Env σ) (n : Nat) (w : World σ) (cmd : command) :
    (cmd.args = [] → handlerAgg env n w cmd =
      (w, .returned (some (.other "Need at least one arg (time duration)")))) ∧
    (∀ arg0 rest err, cmd.args = arg0 :: rest → env.ParseDuration arg0 = .error err →
      handlerAgg env n w cmd =
        (w, .returned (some (Errorf "Error parsing time between reqs: " err)))) ∧
    (∀ arg0 rest d, cmd.args = arg0 :: rest → env.ParseDuration arg0 = .ok d → d ≤ 0 →
      handlerAgg env n w cmd =
        (w.Print ("Collecting feed every " ++ env.DurationString d ++ "\n"),
          .panicked "non-positive interval for NewTicker")) ∧
    (∀ arg0 rest d, cmd.args = arg0 :: rest → env.ParseDuration arg0 = .ok d → 0 < d →
      handlerAgg env n w cmd =
        tickLoop env n (w.Print ("Collecting feed every " ++ env.DurationString d ++ "\n"))) := by
  refine ⟨?_, ?_, ?_, ?_⟩
  · intro h
    simp [handlerAgg, h]
  · intro arg0 rest err h1 h2
    simp [handlerAgg, h1, h2]
  · intro arg0 rest d h1 h2 h3
    simp [handlerAgg, h1, h2, h3]
  · intro arg0 rest d h1 h2 h3
    have : ¬ d ≤ 0 := not_le.mpr h3
    simp [handlerAgg, h1, h2, this]

/-- Claim C2 fails as stated: with no feed registered the selection of the first tick
fails, and `handlerAgg`, observed after three ticks of the ticker, has returned an
error; one selection was made and no second tick ran. -/
theorem handlerAgg_empty_registry_returns :
    (handlerAgg Sample.env 3 Sample.start { name := "agg", args := ["1s"] }).2 =
      .returned (some (.other
        "Error scraping feed: Error getting next feed to fetch: sql: no rows in result set")) ∧
    selections
      (handlerAgg Sample.env 3 Sample.start
        { name := "agg", args := ["1s"] }).1.trace = 1 := by
  decide

/-- Claim C2 as amended.  Let the loop started by `handlerAgg` have run `k` ticks
without returning.  If in the next tick the selection of the feed fails, or the fetch
(which includes the parse of the document) fails, then `scrapeFeed` returns an error
and `handlerAgg` returns at that tick with the error wrapped as
`Error scraping feed: ...`; however many further ticks the ticker delivers, none of
them runs: the final state is the state at the failure. -/
theorem handlerAgg_tick_error_returns (env : Env σ) (k : Nat) (w wk wf : World σ) (cmd : command)
    (e : Error)
    (hrun : handlerAgg env k w cmd = (wk, .running))
    (hfail :
      (∃ err, selectFeed env wk = (wf, .error err) ∧
        e = Errorf "Error getting next feed to fetch: " err) ∨
      (∃ w1 feed err, selectFeed env wk = (w1, .ok feed) ∧
        fetchFeed env (markFetched env feed w1) feed.Url = (wf, .error err) ∧
        e = Errorf "Error calling Agg function: " err)) :
    scrapeFeed env wk = (wf, some e) ∧
    ∀ n, handlerAgg env (k + (n + 1)) w cmd =
      (wf, .returned (some (Errorf "Error scraping feed: " e))) := by
  have hs : scrapeFeed env wk = (wf, some e) := by
    rcases hfail with ⟨err, h1, rfl⟩ | ⟨w1, feed, err, h1, h2, rfl⟩
    · simp [scrapeFeed, h1]
    · simp [scrapeFeed, h1, h2]
  refine ⟨hs, fun n => ?_⟩
  obtain ⟨d, _, hloop⟩ := handlerAgg_running env k w wk cmd hrun
  rw [hloop] at hrun
  rw [hloop, tickLoop_add env k (n + 1) _ wk hrun]
  simp [tickLoop, hs]

/-- Witness of the amended C2: in the scenario the first tick fetches the first feed,
the second tick selects the second feed, whose host does not resolve. -/
theorem handlerAgg_tick_error_returns_scenario :
    scrapeFeed Sample.envTwoFeeds
        (handlerAgg Sample.envTwoFeeds 1 Sample.start { name := "agg", args := ["1s"] }).1 =
      ((scrapeFeed Sample.envTwoFeeds
          (handlerAgg Sample.envTwoFeeds 1 Sample.start
            { name := "agg", args := ["1s"] }).1).1,
        some (Errorf "Error calling Agg function: "
          (Errorf "Error creating client for request: " (.other "no such host")))) ∧
    ∀ n, handlerAgg Sample.envTwoFeeds (1 + (n + 1)) Sample.start
        { name := "agg", args := ["1s"] } =
      ((scrapeFeed Sample.envTwoFeeds
          (handlerAgg Sample.envTwoFeeds 1 Sample.start
            { name := "agg", args := ["1s"] }).1).1,
        .returned (some (Errorf "Error scraping feed: "
          (Errorf "Error calling Agg function: "
            (Errorf "Error creating client for request: " (.other "no such host")))))) :=
  handlerAgg_tick_error_returns Sample.envTwoFeeds 1 Sample.start _ _
    { name := "agg", args := ["1s"] } _ rfl
    (Or.inr ⟨(selectFeed Sample.envTwoFeeds
        (handlerAgg Sample.envTwoFeeds 1 Sample.start
          { name := "agg", args := ["1s"] }).1).1,
      Sample.feedB, Errorf "Error creating client for request: " (.other "no such host"),
      rfl, rfl, rfl⟩)

/-- Claim C8 at a failing input: for the arguments `0s` and `-1s`, which parse to
durations that are not positive, `handlerAgg` does not return an error; it writes the
line announcing the interval and panics in `time.NewTicker`.  No tick runs. -/
theorem handlerAgg_nonpositive_panics :
    handlerAgg Sample.env 3 Sample.start { name := "agg", args := ["0s"] } =
      (Sample.start.Print "Collecting feed every 0s\n",
        .panicked "non-positive interval for NewTicker") ∧
    handlerAgg Sample.env 3 Sample.start { name := "agg", args := ["-1s"] } =
      (Sample.start.Print "Collecting feed every -1s\n",
        .panicked "non-positive interval for NewTicker") :=
  ⟨rfl, rfl⟩

end Loop

/-! ## The command table -/

section Dispatch

variable {σ : Type}

theorem notFound_ne_wrapped (err : Error) :
    Errorf "Error running command: " err ≠ .other "Command not found" := by
  intro h
  simp only [Errorf, Error.other.injEq] at h
  have h2 := congrArg (fun t => t.data.head?) h
  simp [String.data_append] at h2

theorem build_append (regs : List (String × Handler σ)) (r : String × Handler σ) :
    commands.build (regs ++ [r]) = (commands.build regs).register r.1 r.2 := by
  simp [commands.build, List.foldl_append]

theorem lastRegistered_append (regs : List (String × Handler σ)) (r : String × Handler σ)
    (name : String) :
    lastRegistered (regs ++ [r]) name =
      if name = r.1 then some r.2 else lastRegistered regs name := by
  unfold lastRegistered
  rw [List.reverse_append, List.reverse_singleton, List.singleton_append, List.find?_cons]
  by_cases h : name = r.1
  · simp [h]
  · have h2 : (r.1 == name) = false := by
      simp only [beq_eq_false_iff_ne, ne_eq]
      exact fun e => h e.symm
    simp [h, h2]

/-- The table built by a sequence of `register` calls maps a name to the handler most
recently registered under it. -/
theorem build_list (regs : List (String × Handler σ)) (name : String) :
    (commands.build regs).list name = lastRegistered regs name := by
  induction regs using List.reverseRecOn with
  | nil => rfl
  | append_singleton regs r ih =>
    rw [build_append, lastRegistered_append, ← ih]
    rfl

theorem lastRegistered_eq_none (regs : List (String × Handler σ)) (name : String) :
    lastRegistered regs name = none ↔ ∀ r ∈ regs, r.1 ≠ name := by
  unfold lastRegistered
  rw [Option.map_eq_none', List.find?_eq_none]
  constructor
  · intro h r hr
    have := h r (List.mem_reverse.2 hr)
    simpa using this
  · intro h r hr
    have := h r (List.mem_reverse.1 hr)
    simpa using this

/-- Claim C10, command dispatch.  For the table built from the empty table of `main` by
any sequence of `register` calls: if the name of the command was never registered,
`run` returns `Command not found` and leaves the state as it was (no handler ran), and
`run` returns `Command not found` only then; if the name was registered, the handler
most recently registered under it exists, and `run` is one application of that handler
to the given state and command, returning nil when the handler returns nil and
otherwise the handler's error wrapped as `Error running command: ...`.  `register` sets
the entry of its name and leaves every other entry as it was. -/
theorem commands_run_dispatch (regs : List (String × Handler σ)) (w : World σ) (cmd : command) :
    ((∀ r ∈ regs, r.1 ≠ cmd.name) →
      (commands.build regs).run w cmd = (w, some (.other "Command not found"))) ∧
    (((commands.build regs).run w cmd).2 = some (.other "Command not found") →
      ∀ r ∈ regs, r.1 ≠ cmd.name) ∧
    ((∃ r ∈ regs, r.1 = cmd.name) → ∃ h, lastRegistered regs cmd.name = some h) ∧
    (∀ h, lastRegistered regs cmd.name = some h →
      (commands.build regs).run w cmd =
        ((h w cmd).1, (h w cmd).2.map (Errorf "Error running command: "))) ∧
    (∀ (c : commands σ) (name : String) (f : Handler σ),
      (c.register name f).list name = some f ∧
      ∀ k, k ≠ name → (c.register name f).list k = c.list k) := by
  have hrun : ∀ h, lastRegistered regs cmd.name = some h →
      (commands.build regs).run w cmd =
        ((h w cmd).1, (h w cmd).2.map (Errorf "Error running command: ")) := by
    intro h hh
    unfold commands.run
    rw [build_list, hh]
    cases hr : h w cmd with
    | mk w1 res => cases res <;> simp [hr]
  refine ⟨?_, ?_, ?_, hrun, ?_⟩
  · intro hnone
    unfold commands.run
    rw [build_list, (lastRegistered_eq_none regs cmd.name).2 hnone]
  · intro hnf
    rw [← lastRegistered_eq_none]
    cases hl : lastRegistered regs cmd.name with
    | none => rfl
    | some h =>
      exfalso
      rw [hrun h hl] at hnf
      cases hres : (h w cmd).2 with
      | none => simp [hres] at hnf
      | some err =>
        simp only [hres, Option.map_some', Option.some.injEq] at hnf
        exact notFound_ne_wrapped err hnf
  · rintro ⟨r, hr, hname⟩
    cases hl : lastRegistered regs cmd.name with
    | none => exact absurd hname ((lastRegistered_eq_none regs cmd.name).1 hl r hr)
    | some h => exact ⟨h, rfl⟩
  · intro c name f
    refine ⟨by simp [commands.register], fun k hk => ?_⟩
    simp [commands.register, hk]

/-- Witness of C10: the handler `agg` registered twice, the later registration wins. -/
theorem commands_run_dispatch_scenario :
    (commands.build
        [("agg", fun (w : World Nat) (_ : command) => (w, some (Error.other "first"))),
          ("users", fun w _ => (w.Print "* kahya\n", none)),
          ("agg", fun w c => (w.Print (c.name ++ "\n"), some (.other "second")))]).run
      { ext := 0, trace := [] } { name := "agg", args := [] } =
    ({ ext := 0, trace := [.stdout "agg\n"] },
      some (.other "Error running command: second")) :=
  (commands_run_dispatch
      [("agg", fun (w : World Nat) (_ : command) => (w, some (Error.other "first"))),
        ("users", fun w _ => (w.Print "* kahya\n", none)),
        ("agg", fun w c => (w.Print (c.name ++ "\n"), some (.other "second")))]
      { ext := 0, trace := [] } { name := "agg", args := [] }).2.2.2.1
    (fun w c => (w.Print (c.name ++ "\n"), some (.other "second"))) rfl

end Dispatch

/-! ## The modelled store -/

section StoreFacts

variable {σ : Type}

theorem nullString_of_ne (u : String) (h : u ≠ "") :
    nullString u = { Str := u, Valid := true } := by
  simp [nullString, h]

theorem Store.any_url_iff (s : Store) (u : String) :
    (s.posts.any fun p => p.Url == { Str := u, Valid := true }) = true ↔ u ∈ s.urls := by
  simp only [List.any_eq_true, Store.urls, List.mem_filterMap, beq_iff_eq]
  constructor
  · rintro ⟨p, hp, hu⟩
    exact ⟨p, hp, by simp [hu]⟩
  · rintro ⟨p, hp, hu⟩
    refine ⟨p, hp, ?_⟩
    cases hv : p.Url.Valid with
    | false => simp [hv] at hu
    | true =>
      simp only [hv, if_true, Option.some.injEq] at hu
      cases hpu : p.Url with
      | mk str valid =>
        rw [hpu] at hv hu
        simp only at hv hu
        rw [hv, hu]

/-- An insert whose url is already stored is rejected with the uniqueness violation
and changes nothing. -/
theorem Store.CreatePost_stored (s : Store) (arg : CreatePostParams) (u : String)
    (harg : arg.Url = { Str := u, Valid := true }) (hmem : u ∈ s.urls) :
    s.CreatePost arg = (s, some uniqueViolation) := by
  have h := (Store.any_url_iff s u).2 hmem
  simp [Store.CreatePost, harg, h]

/-- An insert whose url is not yet stored adds one row with that url. -/
theorem Store.CreatePost_fresh (s : Store) (arg : CreatePostParams) (u : String)
    (harg : arg.Url = { Str := u, Valid := true }) (hmem : u ∉ s.urls) :
    (s.CreatePost arg).2 = none ∧ (s.CreatePost arg).1.urls = s.urls ++ [u] ∧
      (s.CreatePost arg).1.feeds = s.feeds := by
  have h : (s.posts.any fun p => p.Url == { Str := u, Valid := true }) = false := by
    cases hb : (s.posts.any fun p => p.Url == { Str := u, Valid := true }) with
    | false => rfl
    | true => exact absurd ((Store.any_url_iff s u).1 hb) hmem
  simp [Store.CreatePost, harg, h, Store.urls, List.filterMap_append, Post.ofParams]

/-- An insert without url adds one row and no url. -/
theorem Store.CreatePost_null (s : Store) (arg : CreatePostParams)
    (harg : arg.Url.Valid = false) :
    (s.CreatePost arg).2 = none ∧ (s.CreatePost arg).1.urls = s.urls ∧
      (s.CreatePost arg).1.feeds = s.feeds := by
  simp [Store.CreatePost, harg, Store.urls, List.filterMap_append, Post.ofParams]

/-- No insert touches the registry, and no insert makes two rows share a url. -/
theorem Store.CreatePost_inv (s : Store) (arg : CreatePostParams) :
    (s.CreatePost arg).1.feeds = s.feeds ∧
      (s.urls.Nodup → (s.CreatePost arg).1.urls.Nodup) := by
  cases hv : arg.Url.Valid with
  | false =>
    obtain ⟨_, h2, h3⟩ := Store.CreatePost_null s arg hv
    exact ⟨h3, fun h => h2 ▸ h⟩
  | true =>
    have harg : arg.Url = { Str := arg.Url.Str, Valid := true } := by
      cases hpu : arg.Url with
      | mk str valid =>
        rw [hpu] at hv
        simp only at hv
        simp [hv]
    by_cases hmem : arg.Url.Str ∈ s.urls
    · rw [Store.CreatePost_stored s arg _ harg hmem]
      exact ⟨rfl, id⟩
    · obtain ⟨_, h2, h3⟩ := Store.CreatePost_fresh s arg _ harg hmem
      refine ⟨h3, fun h => ?_⟩
      rw [h2]
      exact List.Nodup.append h (List.nodup_singleton _) (by simpa using hmem)

/-- Over the modelled store the candidate of an item is built without touching the
store, and its url is the link of the item. -/
theorem postParams_withStore (env : Env σ) (feed : Feed) (x : Store × σ) (elem : RSSItem) :
    (postParams (withStore env) feed x elem).1.1 = x.1 ∧
      (postParams (withStore env) feed x elem).2.Url = nullString elem.Link := by
  constructor
  · simp only [postParams, withStore]
    split <;> rfl
  · rfl

/-- The store after the loop body: the store before it, after the insert of the
candidate. -/
theorem scrapeItem_store (env : Env σ) (feed : Feed) (w : World (Store × σ)) (elem : RSSItem) :
    (scrapeItem (withStore env) feed w elem).ext.1 =
      (w.ext.1.CreatePost (postParams (withStore env) feed w.ext elem).2).1 := by
  simp only [scrapeItem]
  show ((postParams (withStore env) feed w.ext elem).1.1.CreatePost _).1 = _
  rw [(postParams_withStore env feed w.ext elem).1]

/-- The item loop never touches the registry and keeps the stored urls distinct. -/
theorem foldl_scrapeItem_store (env : Env σ) (feed : Feed) (items : List RSSItem)
    (w : World (Store × σ)) :
    (items.foldl (scrapeItem (withStore env) feed) w).ext.1.feeds = w.ext.1.feeds ∧
      (w.ext.1.urls.Nodup →
        (items.foldl (scrapeItem (withStore env) feed) w).ext.1.urls.Nodup) := by
  induction items generalizing w with
  | nil => exact ⟨rfl, id⟩
  | cons elem rest ih =>
    obtain ⟨h1, h2⟩ := ih (scrapeItem (withStore env) feed w elem)
    have hinv := Store.CreatePost_inv w.ext.1 (postParams (withStore env) feed w.ext elem).2
    rw [scrapeItem_store] at h1 h2
    rw [List.foldl_cons]
    exact ⟨h1.trans hinv.1, fun h => h2 (hinv.2 h)⟩

/-- A stored url stays stored under every insert. -/
theorem Store.CreatePost_mem (s : Store) (arg : CreatePostParams) (u : String)
    (hu : u ∈ s.urls) : u ∈ (s.CreatePost arg).1.urls := by
  unfold Store.CreatePost
  split
  · exact hu
  · simp only [Store.urls, List.filterMap_append, List.mem_append]
    exact Or.inl hu

/-- A stored url stays stored through the item loop. -/
theorem foldl_scrapeItem_mem (env : Env σ) (feed : Feed) (items : List RSSItem)
    (w : World (Store × σ)) (u : String) (hu : u ∈ w.ext.1.urls) :
    u ∈ (items.foldl (scrapeItem (withStore env) feed) w).ext.1.urls := by
  induction items generalizing w with
  | nil => exact hu
  | cons elem rest ih =>
    rw [List.foldl_cons]
    apply ih
    rw [scrapeItem_store]
    exact Store.CreatePost_mem _ _ _ hu

/-- After the loop body has run for an item with a link, that link is a stored url. -/
theorem scrapeItem_mem (env : Env σ) (feed : Feed) (w : World (Store × σ)) (elem : RSSItem)
    (hurl : elem.Link ≠ "") :
    elem.Link ∈ (scrapeItem (withStore env) feed w elem).ext.1.urls := by
  rw [scrapeItem_store]
  have harg : (postParams (withStore env) feed w.ext elem).2.Url =
      { Str := elem.Link, Valid := true } := by
    rw [(postParams_withStore env feed w.ext elem).2, nullString_of_ne _ hurl]
  by_cases hmem : elem.Link ∈ w.ext.1.urls
  · exact Store.CreatePost_mem _ _ _ hmem
  · rw [(Store.CreatePost_fresh _ _ _ harg hmem).2.1]
    simp

/-- The loop body for an item whose link is already a stored url: the insert is
rejected, the store stays as it is, and the line of the skip is written. -/
theorem scrapeItem_stored (env : Env σ) (feed : Feed) (w : World (Store × σ)) (elem : RSSItem)
    (hurl : elem.Link ≠ "") (hmem : elem.Link ∈ w.ext.1.urls) :
    (scrapeItem (withStore env) feed w elem).ext.1 = w.ext.1 ∧
    (scrapeItem (withStore env) feed w elem).trace =
      w.trace ++ [.CreatePost (postParams (withStore env) feed w.ext elem).2,
        .stdout "found existing url, skipping\n"] := by
  have harg : (postParams (withStore env) feed w.ext elem).2.Url =
      { Str := elem.Link, Valid := true } := by
    rw [(postParams_withStore env feed w.ext elem).2, nullString_of_ne _ hurl]
  have hst := Store.CreatePost_stored w.ext.1 _ _ harg hmem
  constructor
  · rw [scrapeItem_store, hst]
  · have hres : ((withStore env).CreatePost (postParams (withStore env) feed w.ext elem).1
        (postParams (withStore env) feed w.ext elem).2).2 = some uniqueViolation := by
      show ((postParams (withStore env) feed w.ext elem).1.1.CreatePost _).2 = _
      rw [(postParams_withStore env feed w.ext elem).1, hst]
    simp only [scrapeItem, hres]
    rfl

/-- Over the modelled store `fetchFeed` does not touch the store. -/
theorem fetchFeed_store (env : Env σ) (w : World (Store × σ)) (url : String) :
    (fetchFeed (withStore env) w url).1.ext.1 = w.ext.1 := by
  unfold fetchFeed
  simp only [World.emit]
  split
  · rfl
  · split
    · rfl
    · split
      · rfl
      · split <;> rfl

/-- Over the modelled store, the registry after a tick in which a feed is selected is
the registry after the stamp: neither the fetch nor the item loop touches it. -/
theorem scrapeFeed_feeds (env : Env σ) (w w1 : World (Store × σ)) (feed : Feed)
    (hsel : selectFeed (withStore env) w = (w1, .ok feed)) :
    (scrapeFeed (withStore env) w).1.ext.1.feeds =
      (w1.ext.1.MarkFeedFetched (markParams (withStore env) feed w1.ext).2).1.feeds := by
  have hmark : (markFetched (withStore env) feed w1).ext.1 =
      (w1.ext.1.MarkFeedFetched (markParams (withStore env) feed w1.ext).2).1 := rfl
  have hf := fetchFeed_store env (markFetched (withStore env) feed w1) feed.Url
  cases hres : fetchFeed (withStore env) (markFetched (withStore env) feed w1) feed.Url with
  | mk w2 res =>
    rw [hres] at hf
    replace hf : w2.ext.1 = (markFetched (withStore env) feed w1).ext.1 := hf
    cases res with
    | error err =>
      simp only [scrapeFeed, hsel, hres]
      rw [hf, hmark]
    | ok rssFeed =>
      simp only [scrapeFeed, hsel, hres]
      rw [(foldl_scrapeItem_store env feed rssFeed.Channel.Item _).1]
      show w2.ext.1.feeds = _
      rw [hf, hmark]

/-- The feed selected from a registry is a feed of the registry. -/
theorem Store.next_mem (fs : List Feed) (f : Feed) (h : Store.next fs = some f) : f ∈ fs := by
  induction fs generalizing f with
  | nil => simp [Store.next] at h
  | cons g gs ih =>
    simp only [Store.next] at h
    cases hn : Store.next gs with
    | none =>
      simp only [hn, Option.some.injEq] at h
      simp [h]
    | some k =>
      simp only [hn] at h
      split at h
      · simp only [Option.some.injEq] at h
        subst h
        exact List.mem_cons_of_mem _ (ih _ hn)
      · simp only [Option.some.injEq] at h
        simp [h]

/-- After the stamp of the modelled store, the `last_fetched_at` of a registered feed
with the id of the stamp is that of the stamp. -/
theorem Store.MarkFeedFetched_stamps (s : Store) (arg : MarkFeedFetchedParams) (f : Feed)
    (hf : f ∈ s.feeds) (hid : arg.ID = f.ID) :
    (s.MarkFeedFetched arg).1.lastFetchedAt f.ID = some arg.LastFetchedAt := by
  simp only [Store.MarkFeedFetched, Store.lastFetchedAt]
  generalize s.feeds = fs at hf
  induction fs with
  | nil => simp at hf
  | cons g gs ih =>
    by_cases hg : g.ID = f.ID
    · simp [List.find?_cons, hg, hid]
    · have hmem : f ∈ gs := by
        rcases List.mem_cons.1 hf with h | h
        · exact absurd (h ▸ rfl) hg
        · exact h
      have hne : ¬ g.ID = arg.ID := hid ▸ hg
      simpa [List.find?_cons, hg, hne] using ih hmem

/-- Over the modelled store a successful selection reads the registry and leaves the
outside state as it is. -/
theorem selectFeed_withStore (env : Env σ) (w w1 : World (Store × σ)) (f : Feed)
    (hsel : selectFeed (withStore env) w = (w1, .ok f)) :
    w1.ext = w.ext ∧ f ∈ w.ext.1.feeds := by
  simp only [selectFeed, withStore, Store.GetNextFeedToFetch] at hsel
  cases hn : Store.next w.ext.1.feeds with
  | none => simp [hn] at hsel
  | some g =>
    simp only [hn, Prod.mk.injEq, Except.ok.injEq] at hsel
    obtain ⟨hw, hg⟩ := hsel
    refine ⟨?_, hg ▸ Store.next_mem _ _ hn⟩
    rw [← hw]

end StoreFacts

/-! ## The claims about the store -/

section StoreClaims

variable {σ : Type}

/-- Claim C3, idempotence, over the modelled store.  Start from a store whose urls are
distinct.  Write an item with a link through the loop body, let the loop run over any
further items, and write an item with the same link again (for any feed).  Then the
store holds exactly one post with that url, after the first write and after the second;
the second write changes no row; it is observed as a skip, not as an error: the loop
body writes `found existing url, skipping` after the `CreatePost` call and goes on; and
the stored urls are still distinct. -/
theorem scrapeItem_second_write_skipped (env : Env σ) (feed feed2 : Feed) (w : World (Store × σ))
    (elem elem2 : RSSItem) (mid : List RSSItem)
    (hurl : elem.Link ≠ "") (hsame : elem2.Link = elem.Link)
    (huniq : w.ext.1.urls.Nodup) :
    (scrapeItem (withStore env) feed w elem).ext.1.urls.count elem.Link = 1 ∧
    (scrapeItem (withStore env) feed2
        (mid.foldl (scrapeItem (withStore env) feed) (scrapeItem (withStore env) feed w elem))
        elem2).ext.1 =
      (mid.foldl (scrapeItem (withStore env) feed)
        (scrapeItem (withStore env) feed w elem)).ext.1 ∧
    (scrapeItem (withStore env) feed2
        (mid.foldl (scrapeItem (withStore env) feed) (scrapeItem (withStore env) feed w elem))
        elem2).ext.1.urls.count elem.Link = 1 ∧
    (scrapeItem (withStore env) feed2
        (mid.foldl (scrapeItem (withStore env) feed) (scrapeItem (withStore env) feed w elem))
        elem2).ext.1.urls.Nodup ∧
    ∃ arg, arg.Url = { Str := elem.Link, Valid := true } ∧
      (scrapeItem (withStore env) feed2
          (mid.foldl (scrapeItem (withStore env) feed) (scrapeItem (withStore env) feed w elem))
          elem2).trace =
        (mid.foldl (scrapeItem (withStore env) feed)
          (scrapeItem (withStore env) feed w elem)).trace ++
          [.CreatePost arg, .stdout "found existing url, skipping\n"] := by
  have hn1 : (scrapeItem (withStore env) feed w elem).ext.1.urls.Nodup := by
    rw [scrapeItem_store]
    exact (Store.CreatePost_inv _ _).2 huniq
  have hm1 := scrapeItem_mem env feed w elem hurl
  have hnm := (foldl_scrapeItem_store env feed mid _).2 hn1
  have hmm := foldl_scrapeItem_mem env feed mid _ _ hm1
  have hurl2 : elem2.Link ≠ "" := hsame ▸ hurl
  obtain ⟨hs, ht⟩ := scrapeItem_stored env feed2 _ elem2 hurl2 (hsame ▸ hmm)
  refine ⟨List.count_eq_one_of_mem hn1 hm1, hs, ?_, ?_, ?_⟩
  · rw [hs]
    exact List.count_eq_one_of_mem hnm hmm
  · rw [hs]
    exact hnm
  · refine ⟨_, ?_, ht⟩
    rw [(postParams_withStore env feed2 _ elem2).2, nullString_of_ne _ hurl2, hsame]

/-- Witness of C3: the item of the scenario written, then the other two items, then the
item again, from the empty table of posts. -/
theorem scrapeItem_second_write_skipped_scenario :
    (scrapeItem (withStore Sample.env) Sample.feedA Sample.w0 Sample.item).ext.1.urls.count
      Sample.item.Link = 1 ∧
    (scrapeItem (withStore Sample.env) Sample.feedA
        ([Sample.undated, Sample.ancient].foldl (scrapeItem (withStore Sample.env) Sample.feedA)
          (scrapeItem (withStore Sample.env) Sample.feedA Sample.w0 Sample.item))
        Sample.item).ext.1 =
      ([Sample.undated, Sample.ancient].foldl (scrapeItem (withStore Sample.env) Sample.feedA)
        (scrapeItem (withStore Sample.env) Sample.feedA Sample.w0 Sample.item)).ext.1 ∧
    (scrapeItem (withStore Sample.env) Sample.feedA
        ([Sample.undated, Sample.ancient].foldl (scrapeItem (withStore Sample.env) Sample.feedA)
          (scrapeItem (withStore Sample.env) Sample.feedA Sample.w0 Sample.item))
        Sample.item).ext.1.urls.count Sample.item.Link = 1 ∧
    (scrapeItem (withStore Sample.env) Sample.feedA
        ([Sample.undated, Sample.ancient].foldl (scrapeItem (withStore Sample.env) Sample.feedA)
          (scrapeItem (withStore Sample.env) Sample.feedA Sample.w0 Sample.item))
        Sample.item).ext.1.urls.Nodup ∧
    ∃ arg, arg.Url = { Str := Sample.item.Link, Valid := true } ∧
      (scrapeItem (withStore Sample.env) Sample.feedA
          ([Sample.undated, Sample.ancient].foldl (scrapeItem (withStore Sample.env) Sample.feedA)
            (scrapeItem (withStore Sample.env) Sample.feedA Sample.w0 Sample.item))
          Sample.item).trace =
        ([Sample.undated, Sample.ancient].foldl (scrapeItem (withStore Sample.env) Sample.feedA)
          (scrapeItem (withStore Sample.env) Sample.feedA Sample.w0 Sample.item)).trace ++
          [.CreatePost arg, .stdout "found existing url, skipping\n"] :=
  scrapeItem_second_write_skipped Sample.env Sample.feedA Sample.feedA Sample.w0 Sample.item Sample.item
    [Sample.undated, Sample.ancient] (by decide) rfl (by decide)

/-- Claim C9, fairness, over the modelled store.  The registry holds feed `A`, never
fetched, and feed `B`, fetched one hour (or more) before the reading of the clock that
opens the tick, in either order.  One tick of `scrapeFeed` selects `A`: the one fetch of
the tick is for the url of `A` and every `CreatePost` call of the tick carries the id
of `A`.  After the tick the `last_fetched_at` of `A` is that reading of the clock, that
of `B` is unchanged, and the first is not before the second. -/
theorem scrapeFeed_selects_never_fetched (env : Env σ) (A B : Feed) (w : World (Store × σ))
    (hfeeds : w.ext.1.feeds = [A, B] ∨ w.ext.1.feeds = [B, A])
    (hid : A.ID ≠ B.ID)
    (hA : A.LastFetchedAt.Valid = false)
    (hB : B.LastFetchedAt.Valid = true)
    (hhour : B.LastFetchedAt.Time.abs + Hour ≤ (env.Now w.ext.2).2.abs) :
    fetches (scrapeFeed (withStore env) w).1.trace = fetches w.trace ++ [A.Url] ∧
    (∃ calls, createPosts (scrapeFeed (withStore env) w).1.trace =
        createPosts w.trace ++ calls ∧ ∀ p ∈ calls, p.FeedID = A.ID) ∧
    (scrapeFeed (withStore env) w).1.ext.1.lastFetchedAt A.ID =
      some { Time := (env.Now w.ext.2).2, Valid := true } ∧
    (scrapeFeed (withStore env) w).1.ext.1.lastFetchedAt B.ID = some B.LastFetchedAt ∧
    B.LastFetchedAt.Time.abs ≤ (env.Now w.ext.2).2.abs := by
  have hnext : Store.next w.ext.1.feeds = some A := by
    rcases hfeeds with h | h <;> simp [h, Store.next, NullTime.before, hA, hB]
  have hsel : selectFeed (withStore env) w =
      ({ ext := w.ext, trace := w.trace ++ [.GetNextFeedToFetch] }, .ok A) := by
    simp [selectFeed, withStore, Store.GetNextFeedToFetch, hnext]
  obtain ⟨rest, h1, _, h3, h4⟩ := scrapeFeed_selected (withStore env) w _ A hsel
  have hfeedsAfter := scrapeFeed_feeds env w _ A hsel
  have hidB : B.ID ≠ A.ID := fun h => hid h.symm
  refine ⟨?_, ⟨createPosts rest, ?_, h4⟩, ?_, ?_, ?_⟩
  · rw [h1]
    simp [fetches_append, fetches, h3]
  · rw [h1]
    simp [createPosts_append, createPosts]
  · unfold Store.lastFetchedAt
    rw [hfeedsAfter]
    rcases hfeeds with h | h <;>
      simp [Store.MarkFeedFetched, h, markParams, withStore, hid, hidB, List.find?_cons]
  · unfold Store.lastFetchedAt
    rw [hfeedsAfter]
    rcases hfeeds with h | h <;>
      simp [Store.MarkFeedFetched, h, markParams, withStore, hid, hidB, List.find?_cons]
  · have : (0 : Int) ≤ Hour := by decide
    omega

/-- Witness of C9: the two feeds of the scenario. -/
theorem scrapeFeed_selects_never_fetched_scenario :
    fetches (scrapeFeed (withStore Sample.env) Sample.w0).1.trace =
      fetches Sample.w0.trace ++ [Sample.feedA.Url] ∧
    (∃ calls, createPosts (scrapeFeed (withStore Sample.env) Sample.w0).1.trace =
        createPosts Sample.w0.trace ++ calls ∧ ∀ p ∈ calls, p.FeedID = Sample.feedA.ID) ∧
    (scrapeFeed (withStore Sample.env) Sample.w0).1.ext.1.lastFetchedAt Sample.feedA.ID =
      some { Time := (Sample.env.Now Sample.w0.ext.2).2, Valid := true } ∧
    (scrapeFeed (withStore Sample.env) Sample.w0).1.ext.1.lastFetchedAt Sample.feedB.ID =
      some Sample.feedB.LastFetchedAt ∧
    Sample.feedB.LastFetchedAt.Time.abs ≤ (Sample.env.Now Sample.w0.ext.2).2.abs :=
  scrapeFeed_selects_never_fetched Sample.env Sample.feedA Sample.feedB Sample.w0 (Or.inl rfl) (by decide) rfl rfl
    (by decide)

/-- Claim C4 fails as stated: over the modelled store, in a tick in which the stamp
ends in a write error, the first feed is selected, `MarkFeedFetched` is called once
for it (before the fetch of its url), the tick runs to its end and returns no error,
and after the tick the `last_fetched_at` of the selected feed is still null: the feed
is not stamped. -/
theorem scrapeFeed_failed_stamp_not_stamped :
    markCalls (scrapeFeed Sample.envStampFails Sample.w0).1.trace =
      [{ ID := Sample.feedA.ID
         LastFetchedAt := { Time := Sample.clock 0, Valid := true }
         UpdatedAt := Sample.clock 1 }] ∧
    fetches (scrapeFeed Sample.envStampFails Sample.w0).1.trace = [Sample.feedA.Url] ∧
    (scrapeFeed Sample.envStampFails Sample.w0).2 = none ∧
    (scrapeFeed Sample.envStampFails Sample.w0).1.ext.1.lastFetchedAt Sample.feedA.ID =
      some { Time := { abs := 0 }, Valid := false } :=
  ⟨rfl, rfl, rfl, rfl⟩

/-- Claim C4 as amended.  First part, for every environment: in a tick in which a
feed is selected, whatever the fetch and the parse do afterwards, `scrapeFeed` calls
`MarkFeedFetched` exactly once, for the id of the selected feed, with a
`LastFetchedAt` that is valid (not null) and is the reading of the clock made right
after the selection; the call comes before the call of `fetchFeed`, which is the only
fetch of the tick and is for the url of that feed; and the fetch whose result the tick
acts on runs in the outside state that this very call of the store has left.  Second
part, over the modelled store, whose stamp is carried out: after the tick the
`last_fetched_at` of the selected feed is that reading of the clock, whether the fetch
and the parse fail or not. -/
theorem scrapeFeed_stamps_before_fetch (env : Env σ) (w w1 : World σ) (feed : Feed)
    (hsel : selectFeed env w = (w1, .ok feed))
    (ws ws1 : World (Store × σ)) (f : Feed)
    (hstore : selectFeed (withStore env) ws = (ws1, .ok f)) :
    (∃ arg rest,
      arg =
        { ID := feed.ID
          LastFetchedAt := { Time := (env.Now w1.ext).2, Valid := true }
          UpdatedAt := (env.Now (env.Now w1.ext).1).2 } ∧
      (scrapeFeed env w).1.trace =
        w.trace ++ [.GetNextFeedToFetch, .MarkFeedFetched arg, .fetchFeed feed.Url] ++ rest ∧
      markCalls rest = [] ∧ fetches rest = [] ∧
      markCalls (scrapeFeed env w).1.trace = markCalls w.trace ++ [arg] ∧
      (∀ wf err,
        fetchFeed env
            { ext := (env.MarkFeedFetched (env.Now (env.Now w1.ext).1).1 arg).1
              trace := w.trace ++ [.GetNextFeedToFetch, .MarkFeedFetched arg] }
            feed.Url = (wf, .error err) →
          scrapeFeed env w = (wf, some (Errorf "Error calling Agg function: " err))) ∧
      (∀ wf rssFeed,
        fetchFeed env
            { ext := (env.MarkFeedFetched (env.Now (env.Now w1.ext).1).1 arg).1
              trace := w.trace ++ [.GetNextFeedToFetch, .MarkFeedFetched arg] }
            feed.Url = (wf, .ok rssFeed) →
          scrapeFeed env w =
            (rssFeed.Channel.Item.foldl (scrapeItem env feed) (printChannel env wf rssFeed),
              none))) ∧
    (scrapeFeed (withStore env) ws).1.ext.1.lastFetchedAt f.ID =
      some { Time := (env.Now ws1.ext.2).2, Valid := true } := by
  have hw1 : w1.trace = w.trace ++ [.GetNextFeedToFetch] := by
    have h := congrArg (fun r => r.1.trace) hsel
    simpa [selectFeed] using h.symm
  have hmark : markFetched env feed w1 =
      { ext := (env.MarkFeedFetched (env.Now (env.Now w1.ext).1).1
            (markParams env feed w1.ext).2).1
        trace := w.trace ++ [.GetNextFeedToFetch,
          .MarkFeedFetched (markParams env feed w1.ext).2] } := by
    simp [markFetched, markParams, hw1]
  refine ⟨?_, ?_⟩
  · obtain ⟨rest, h1, h2, h3, _⟩ := scrapeFeed_selected env w w1 feed hsel
    refine ⟨(markParams env feed w1.ext).2, rest, rfl, h1, h2, h3, ?_, ?_, ?_⟩
    · rw [h1]
      simp [markCalls_append, markCalls, h2]
    · intro wf err hfetch
      rw [← hmark] at hfetch
      simp [scrapeFeed, hsel, hfetch]
    · intro wf rssFeed hfetch
      rw [← hmark] at hfetch
      simp [scrapeFeed, hsel, hfetch]
  · obtain ⟨hext, hmem⟩ := selectFeed_withStore env ws ws1 f hstore
    unfold Store.lastFetchedAt
    rw [scrapeFeed_feeds env ws ws1 f hstore]
    have h := Store.MarkFeedFetched_stamps ws1.ext.1
      (markParams (withStore env) f ws1.ext).2 f (hext ▸ hmem) rfl
    exact h

/-- Witness of the amended C4: ticks that select the second feed, whose fetch fails
because the host does not resolve; the second over the modelled store. -/
theorem scrapeFeed_stamps_before_fetch_scenario :
    (∃ arg rest,
      arg =
        { ID := Sample.feedB.ID
          LastFetchedAt := { Time := Sample.clock 12, Valid := true }
          UpdatedAt := Sample.clock 13 } ∧
      (scrapeFeed Sample.envTwoFeeds Sample.later).1.trace =
        Sample.later.trace ++
          [.GetNextFeedToFetch, .MarkFeedFetched arg, .fetchFeed Sample.feedB.Url] ++ rest ∧
      markCalls rest = [] ∧ fetches rest = [] ∧
      markCalls (scrapeFeed Sample.envTwoFeeds Sample.later).1.trace =
        markCalls Sample.later.trace ++ [arg] ∧
      (∀ wf err,
        fetchFeed Sample.envTwoFeeds
            { ext := (Sample.envTwoFeeds.MarkFeedFetched 14 arg).1
              trace := Sample.later.trace ++ [.GetNextFeedToFetch, .MarkFeedFetched arg] }
            Sample.feedB.Url = (wf, .error err) →
          scrapeFeed Sample.envTwoFeeds Sample.later =
            (wf, some (Errorf "Error calling Agg function: " err))) ∧
      (∀ wf rssFeed,
        fetchFeed Sample.envTwoFeeds
            { ext := (Sample.envTwoFeeds.MarkFeedFetched 14 arg).1
              trace := Sample.later.trace ++ [.GetNextFeedToFetch, .MarkFeedFetched arg] }
            Sample.feedB.Url = (wf, .ok rssFeed) →
          scrapeFeed Sample.envTwoFeeds Sample.later =
            (rssFeed.Channel.Item.foldl (scrapeItem Sample.envTwoFeeds Sample.feedB)
              (printChannel Sample.envTwoFeeds wf rssFeed), none))) ∧
    (scrapeFeed (withStore Sample.envTwoFeeds) Sample.wB).1.ext.1.lastFetchedAt
        Sample.feedB.ID =
      some { Time := Sample.clock 0, Valid := true } :=
  scrapeFeed_stamps_before_fetch Sample.envTwoFeeds Sample.later
    (selectFeed Sample.envTwoFeeds Sample.later).1 Sample.feedB rfl
    Sample.wB (selectFeed (withStore Sample.envTwoFeeds) Sample.wB).1 Sample.feedB rfl

end StoreClaims

end Gator
